import Mathlib

/-!
Verification development for the HackTown 2025 event scraper
(`scrape_hacktown.py`).  Python strings are modelled as `List Char`
(sequences of Unicode code points), Python `None` as `Option.none`,
Python dicts as association lists, and the retry / summary logic as
pure Lean functions mirroring the source line by line.
-/

namespace Hacktown

/-! ## Case folding

Python's `str.upper` / `str.lower`, restricted to the alphabet the
scraper's rule table can ever inspect: ASCII letters and the Latin-1
letters (the rule patterns contain only those).  `'ß'.upper() = "SS"`
in Python, hence the uppercase map is `Char → List Char`.
-/

/-- Lower/upper pairs of ASCII and Latin-1 letters, exactly as Python's
`str.upper` and `str.lower` map them (Latin-1 block: U+00E0..U+00FE
except the division sign, paired with U+00C0..U+00DE except the
multiplication sign). -/
def upperPairs : List (Char × Char) :=
  [ ('a', 'A'), ('b', 'B'), ('c', 'C'), ('d', 'D'), ('e', 'E'), ('f', 'F'),
    ('g', 'G'), ('h', 'H'), ('i', 'I'), ('j', 'J'), ('k', 'K'), ('l', 'L'),
    ('m', 'M'), ('n', 'N'), ('o', 'O'), ('p', 'P'), ('q', 'Q'), ('r', 'R'),
    ('s', 'S'), ('t', 'T'), ('u', 'U'), ('v', 'V'), ('w', 'W'), ('x', 'X'),
    ('y', 'Y'), ('z', 'Z'),
    ('à', 'À'), ('á', 'Á'), ('â', 'Â'), ('ã', 'Ã'), ('ä', 'Ä'), ('å', 'Å'),
    ('æ', 'Æ'), ('ç', 'Ç'), ('è', 'È'), ('é', 'É'), ('ê', 'Ê'), ('ë', 'Ë'),
    ('ì', 'Ì'), ('í', 'Í'), ('î', 'Î'), ('ï', 'Ï'), ('ð', 'Ð'), ('ñ', 'Ñ'),
    ('ò', 'Ò'), ('ó', 'Ó'), ('ô', 'Ô'), ('õ', 'Õ'), ('ö', 'Ö'), ('ø', 'Ø'),
    ('ù', 'Ù'), ('ú', 'Ú'), ('û', 'Û'), ('ü', 'Ü'), ('ý', 'Ý'), ('þ', 'Þ') ]

/-- One character of Python's `str.upper` (on the modelled alphabet);
`'ß'` expands to two characters, everything else maps one-to-one. -/
def pyUpperChar (c : Char) : List Char :=
  if c = 'ß' then ['S', 'S']
  else
    match upperPairs.find? (fun p => p.1 == c) with
    | some p => [p.2]
    | none => [c]

/-- One character of Python's `str.lower` (on the modelled alphabet). -/
def pyLowerChar (c : Char) : Char :=
  match upperPairs.find? (fun p => p.2 == c) with
  | some p => p.1
  | none => c

/-- Python `s.upper()`. -/
def pyUpper (s : List Char) : List Char := s.flatMap pyUpperChar

/-- Python `s.lower()`. -/
def pyLower (s : List Char) : List Char := s.map pyLowerChar

/-! ## The venue classification rule table

The ordered `if`/`elif` chain of `normalize_and_locate`
(src/scrape_hacktown.py lines 201-310), one entry per branch, in source
order.  Each entry: the list of substring patterns tested on the
uppercased place (branches joined by `or` give two patterns), the
`filter_location`, and the `near_location` assigned on a match.
-/

def rules : List (List (List Char) × List Char × List Char) :=
  [ ([ "INATEL".toList ], ( "Inatel".toList, "Inatel e Arredores".toList)),
    ([ "ETE".toList ], ( "ETE".toList, "ETE e Arredores".toList)),
    ([ "LOJA MAÇONICA".toList, "LOJA MAÇÔNICA".toList ],
      ( "Loja Maçônica".toList, "Praça e Arredores".toList)),
    ([ "REAL PALACE".toList ], ( "Real Palace".toList, "Praça e Arredores".toList)),
    ([ "BRASEIRO".toList ], ( "Braseiro".toList, "Praça e Arredores".toList)),
    ([ "BOTECO DO TIO".toList ],
      ( "Boteco do Tio João".toList, "Praça e Arredores".toList)),
    ([ "ASSOCIAÇÃO".toList ],
      ( "Associação José do Patrocínio".toList, "Praça e Arredores".toList)),
    ([ "BAR E RESTAURANTE".toList ],
      ( "Bar e Restaurante do Dimas II".toList, "Praça e Arredores".toList)),
    ([ "ESCOLA S".toList ],
      ( "Escola Sanico Teles".toList, "Praça e Arredores".toList)),
    ([ "CASA DINAMARCA".toList ],
      ( "Casa Dinamarca".toList, "Inatel e Arredores".toList)),
    ([ "CASA MFM".toList ], ( "Casa MFM".toList, "Inatel e Arredores".toList)),
    ([ "CASA DO CCCF".toList ], ( "Casa do CCCF".toList, "Praça e Arredores".toList)),
    ([ "PALCO UNDERSTREAM".toList ],
      ( "Palco UNDERSTREAM".toList, "Praça e Arredores".toList)),
    ([ "INCUBADORA MUNICIPAL".toList ],
      ( "Incubadora Municipal".toList, "Praça e Arredores".toList)),
    ([ "CASA GOOGLE CLOUD".toList ],
      ( "Casa Google Cloud".toList, "Inatel e Arredores".toList)),
    ([ "CASA FUTUROS POSSÍVEIS".toList ],
      ( "Casa Futuros Possíveis - Maria Maria Gastrobar".toList,
        "Praça e Arredores".toList)),
    ([ "PALCO MULTIEXPERIÊNCIAS".toList ],
      ( "Palco MultiExperiências".toList, "ETE e Arredores".toList)),
    ([ "CIRCUITO SESC AMANTIKIR".toList ],
      ( "Circuito SESC Amantikir".toList, "Praça e Arredores".toList)),
    ([ "MIMMA".toList ], ( "Mimma\x27s".toList, "Praça e Arredores".toList)),
    ([ "DIJA GASTRONOMIA".toList ],
      ( "Dija Gastronomia".toList, "Praça e Arredores".toList)),
    ([ "GRANDPA JOEL".toList, "COFFEE SHOP".toList ],
      ( "Grandpa Joel´s Coffee Shop".toList, "Praça e Arredores".toList)),
    ([ "SINHÁ MOREIRA".toList, "SINHA MOREIRA".toList ],
      ( "Av. Sinhá Moreira".toList, "ETE e Arredores".toList)),
    ([ "BE BOLD".toList ], ( "Be Bold".toList, "ETE e Arredores".toList)),
    ([ "MERCADO MUNICIPAL".toList ],
      ( "Mercado Municipal".toList, "ETE e Arredores".toList)),
    ([ "FEIRA DA MANTIQUEIRA".toList ],
      ( "Feira da Mantiqueira".toList, "Inatel e Arredores".toList)),
    ([ "A SER ANUNCIADO".toList ],
      ( "A ser anunciado".toList, "ETE e Arredores".toList)) ]

/-- First rule (source order = `elif` order) one of whose patterns is a
substring (Python `pat in place_upper`) of the uppercased place. -/
def find_rule (u : List Char) : Option (List (List Char) × List Char × List Char) :=
  rules.find? (fun rule => rule.1.any (fun pat => decide (pat <:+: u)))

/-- Embedding of `normalize_and_locate` (src/scrape_hacktown.py lines
157-321).  Returns the `(filter_location, near_location)` pair; the
Python value is `tuple[str, str | None]`, so the second component is an
`Option`.  The falsy-input guard returns the `("Other", "Other")` pair;
otherwise the uppercased input is tested against the ordered rule
table; with no match the ORIGINAL string is kept as `filter_location`
and `near_location` stays `None`.  The `location_cache` memoization is
omitted: entries only ever hold the value this pure computation
produces for their key. -/
def normalize_and_locate (place : List Char) : List Char × Option (List Char) :=
  if place = [] then ( "Other".toList, some ( "Other".toList))
  else
    match find_rule (pyUpper place) with
    | some rule => (rule.2.1, some rule.2.2)
    | none => (place, none)

/-! ## Event records and `process_events`

A raw event is a JSON object; we model it as an association list from
field names to values.  Values are a string, JSON `null`, or an opaque
non-string payload (`blob`) standing for any other JSON value — the
scraper never inspects fields other than `place`, so the payload is
irrelevant.
-/

/-- A JSON field value as the scraper can observe it. -/
inductive Val where
  | str : List Char → Val
  | null : Val
  | blob : Nat → Val
deriving DecidableEq

/-- One raw event record: a Python dict, as an association list. -/
abbrev EventRecord := List (String × Val)

/-- Python `event.get(k)` / `event[k]` read: the first binding of the
key, if any. -/
def dict_get (r : EventRecord) (k : String) : Option Val :=
  match r with
  | [] => Option.none
  | p :: rest => if p.1 = k then some p.2 else dict_get rest k

/-- Python `event[k] = v`: replace the binding if the key is present
(keeping its position), else append a new binding at the end. -/
def dict_set (r : EventRecord) (k : String) (v : Val) : EventRecord :=
  if r.any (fun p => p.1 == k) then
    r.map (fun p => if p.1 == k then (k, v) else p)
  else r ++ [(k, v)]

/-- Python `event.get('place', '')` followed by `normalize_and_locate`'s
falsy-input guard: an absent or `null` place behaves exactly like the
empty string.  A truthy non-string place would raise `AttributeError`
in the source (`place.upper()`), modelled as `none`. -/
def place_of (r : EventRecord) : Option (List Char) :=
  match dict_get r "place" with
  | Option.none => some []
  | some (Val.str s) => some s
  | some Val.null => some []
  | some (Val.blob _) => Option.none

/-- The body of the `process_events` loop for one event
(src/scrape_hacktown.py lines 559-568): classify the place and store
both derived fields on the record. -/
def add_locations (r : EventRecord) (p : List Char) : EventRecord :=
  dict_set (dict_set r "filterLocation" (Val.str (normalize_and_locate p).1))
    "nearLocation"
    (match (normalize_and_locate p).2 with
     | some s => Val.str s
     | Option.none => Val.null)

/-- One loop iteration of `process_events`; `none` models the raised
exception on a truthy non-string `place`. -/
def process_event (r : EventRecord) : Option EventRecord :=
  (place_of r).map (add_locations r)

/-- Embedding of `process_events` (src/scrape_hacktown.py lines
537-570): process the records in order; an exception anywhere aborts
the run (`none`). -/
def process_events : List EventRecord → Option (List EventRecord)
  | [] => some []
  | r :: rest =>
    match process_event r with
    | Option.none => Option.none
    | some r' =>
      match process_events rest with
      | Option.none => Option.none
      | some rest' => some (r' :: rest')

/-- The records whose `place` field the source can classify without
raising: absent, `null`, or a string. -/
def place_ok (r : EventRecord) : Bool := (place_of r).isSome

/-! ## Per-date pagination (`fetch_all_pages_for_date`)

`fetch_page`'s outcome for each page of one date is an oracle
`Nat → Option (PageData α)`: `none` models `fetch_page` returning
`None` (all retries exhausted, or a falsy JSON body), `some` a parsed
body with its `data` array and `meta.last_page` (the source defaults
`data` to `[]` and `last_page` to `1` when the keys are missing, so
both fields are always available on a successful fetch).
-/

/-- A successfully fetched page body, with `data` and `meta.last_page`
already extracted (defaults applied). -/
structure PageData (α : Type) where
  data : List α
  last_page : Nat
deriving DecidableEq

/-- The list `[s, s+1, ..., s+n-1]` (Python `range(s, s+n)`). -/
def page_range (s n : Nat) : List Nat :=
  match n with
  | 0 => []
  | m + 1 => s :: page_range (s + 1) m

/-- The records a page result contributes: its `data` on success,
nothing on a failed fetch. -/
def opt_data {α : Type} (r : Option (PageData α)) : List α :=
  match r with
  | some pd => pd.data
  | Option.none => []

/-- One step of the result-combination loop (src/scrape_hacktown.py
lines 519-526): `all_events.extend(result['data'])` when the page
succeeded, nothing otherwise. -/
def append_page {α : Type} (acc : List α) (r : Option (PageData α)) : List α :=
  match r with
  | some pd => acc ++ pd.data
  | Option.none => acc

/-- The records page `p` contributes to its date under a given oracle. -/
def page_records {α : Type} (fetch : Nat → Option (PageData α)) (p : Nat) :
    List α :=
  opt_data (fetch p)

/-- Embedding of `fetch_all_pages_for_date` (src/scrape_hacktown.py
lines 441-534).  Returns `(all_events, success, issued)`: the collected
records, whether the date is on the success path (page 1 fetched), and
the list of page numbers for which a fetch was issued.  If page 1 fails
the function returns `[]` at once, issuing no further fetches.
Otherwise pages `2..last_page` are all fetched (`asyncio.gather`
preserves task order) and each successful page's records are appended
in ascending page order; a failed page contributes nothing. -/
def fetch_all_pages_for_date {α : Type} (fetch : Nat → Option (PageData α)) :
    List α × Bool × List Nat :=
  match fetch 1 with
  | Option.none => ([], false, [1])
  | some first =>
    let pages := page_range 2 (first.last_page - 1)
    let results := pages.map fetch
    let all_events := results.foldl append_page first.data
    (all_events, true, 1 :: pages)

/-! ## Environment profile and the retry state machine (`fetch_page`)

The adaptive constants (src/scrape_hacktown.py lines 48-65) as
functions of the constrained-environment flag `is_ci`, and one
iteration of `fetch_page`'s retry loop (lines 362-416) as a pure
classification of the HTTP status.  `attempt` is the source's 0-based
loop variable (`for attempt in range(MAX_RETRIES)`).  Random
`uniform(a, b)` samples enter as rational parameters.
-/

/-- `MAX_CONCURRENT_REQUESTS`: 1 in CI, 2 locally. -/
def MAX_CONCURRENT_REQUESTS (is_ci : Bool) : Nat := if is_ci then 1 else 2

/-- `RETRY_DELAY`: 20 in CI, 5 locally. -/
def RETRY_DELAY (is_ci : Bool) : ℚ := if is_ci then 20 else 5

/-- `MAX_RETRIES`: 3 in CI, 5 locally. -/
def MAX_RETRIES (is_ci : Bool) : Nat := if is_ci then 3 else 5

/-- The 403 backoff delay (src/scrape_hacktown.py lines 396-403);
`jitter` is the `random.uniform(0, 30)` (CI) or `random.uniform(0, 5)`
(local) sample. -/
def retry_delay_403 (is_ci : Bool) (attempt : Nat) (jitter : ℚ) : ℚ :=
  if is_ci then min (30 + (attempt : ℚ) * 30 + jitter) 120
  else max 5 (min (RETRY_DELAY false * 2 ^ attempt + jitter) 30)

/-- What one retry-loop iteration does after receiving a response. -/
inductive FetchAction where
  | success
  | retryAfter : ℚ → FetchAction
  | giveUp
deriving DecidableEq

/-- Embedding of the response classification inside `fetch_page`'s
retry loop (src/scrape_hacktown.py lines 387-416): 200 succeeds; 403
with attempts remaining backs off by `retry_delay_403`; any other 4xx
in CI with attempts remaining waits the `random.uniform(15, 30)` sample
`j4xx` and retries; everything else returns `None` at once. -/
def fetch_page_step (is_ci : Bool) (max_retries attempt status : Nat)
    (j403 j4xx : ℚ) : FetchAction :=
  if status = 200 then FetchAction.success
  else if status = 403 ∧ attempt < max_retries - 1 then
    FetchAction.retryAfter (retry_delay_403 is_ci attempt j403)
  else if is_ci ∧ 400 ≤ status ∧ status < 500 ∧ attempt < max_retries - 1 then
    FetchAction.retryAfter j4xx
  else FetchAction.giveUp

/-- The 403 backoff schedule exactly as the specification words it,
with `attempt` read as the 1-based attempt number ranging over
`1..maxRetries`: constrained profile `30 + 30·attempt + jitter` capped
at 120, unconstrained `base·2^attempt + jitter` clamped to `[5, 30]`
with base 5.  Written from the spec only, for comparison with
`retry_delay_403`. -/
def claim_delay_403 (is_ci : Bool) (attempt : Nat) (jitter : ℚ) : ℚ :=
  if is_ci then min (30 + (attempt : ℚ) * 30 + jitter) 120
  else max 5 (min (5 * 2 ^ attempt + jitter) 30)

/-! ## Run summary (`main`, lines 879-955)

The aggregation loop over per-date results and the two summary shapes.
The prior persisted summary is read with `.get(key, default)`, so its
fields are `Option`s with the source's defaults applied inside
`build_summary`.  Fields appearing in only one branch of the source are
`Option`s in the output (absent = the branch does not write the key).
Rounding of the two float statistics to two decimals is omitted.
-/

/-- The previously persisted `summary.json`, as far as `main` reads it. -/
structure ExistingSummary where
  scraping_completed : Option String
  total_events : Option Nat
  successful_dates : Option Nat
  files_created : Option (List String)
  consecutive_failures : Option Nat
deriving DecidableEq

/-- The summary record `main` writes. -/
structure SummaryData where
  scraping_completed : String
  total_events : Nat
  successful_dates : Nat
  failed_dates : List String
  dates_processed : List String
  files_created : List String
  scraping_time_seconds : ℚ
  events_per_second : Option ℚ
  location_cache_size : Option Nat
  last_failed_attempt : Option String
  consecutive_failures : Option Nat

/-- The statistics loop of `main` (src/scrape_hacktown.py lines
879-895): walk the per-date results in order, accumulating
`(total_events, successful_dates, failed_dates)`; a date counts as
successful exactly when its record list is non-empty (`if events:`). -/
def aggregate {α : Type} (all_events : List (String × List α)) :
    Nat × Nat × List String :=
  all_events.foldl
    (fun acc de =>
      if de.2.isEmpty then (acc.1, acc.2.1, acc.2.2 ++ [de.1])
      else (acc.1 + de.2.length, acc.2.1 + 1, acc.2.2))
    (0, 0, [])

/-- The summary construction of `main` (src/scrape_hacktown.py lines
924-955): if any date counted as successful, a fresh summary from this
run; otherwise carry `scraping_completed`, `total_events`,
`successful_dates` and `files_created` over from the prior summary
(with the source's `.get` defaults), stamp `last_failed_attempt` with
the current time and increment `consecutive_failures`. -/
def build_summary {α : Type} (all_events : List (String × List α))
    (event_dates : List String) (existing : ExistingSummary)
    (now : String) (elapsed : ℚ) (cache_size : Nat) : SummaryData :=
  let t := aggregate all_events
  let total_events := t.1
  let successful_dates := t.2.1
  let failed_dates := t.2.2
  if successful_dates > 0 then
    { scraping_completed := now
      total_events := total_events
      successful_dates := successful_dates
      failed_dates := failed_dates
      dates_processed := event_dates
      files_created :=
        (event_dates.filter (fun d => ¬ failed_dates.contains d)).map
          (fun d => "hacktown_events_" ++ d ++ ".json")
      scraping_time_seconds := elapsed
      events_per_second :=
        some (if elapsed > 0 then (total_events : ℚ) / elapsed else 0)
      location_cache_size := some cache_size
      last_failed_attempt := Option.none
      consecutive_failures := Option.none }
  else
    { scraping_completed := existing.scraping_completed.getD "Never"
      total_events := existing.total_events.getD 0
      successful_dates := existing.successful_dates.getD 0
      failed_dates := failed_dates
      dates_processed := event_dates
      files_created := existing.files_created.getD []
      scraping_time_seconds := elapsed
      events_per_second := Option.none
      location_cache_size := Option.none
      last_failed_attempt := some now
      consecutive_failures := some (existing.consecutive_failures.getD 0 + 1) }

/-- The whole run seen from the summary: every date's record list comes
from `fetch_all_pages_for_date` under a per-date page oracle
(`fetch_all_dates` maps each date to its coordinator's result,
preserving date order), and `main` builds the summary from those
lists. -/
def run_pipeline {α : Type} (dates : List String)
    (oracle : String → Nat → Option (PageData α))
    (existing : ExistingSummary) (now : String) (elapsed : ℚ)
    (cache_size : Nat) : SummaryData :=
  build_summary
    (dates.map (fun d => (d, (fetch_all_pages_for_date (oracle d)).1)))
    dates existing now elapsed cache_size

/-! ## The global concurrency limiter

`fetch_all_dates` creates one `asyncio.Semaphore(MAX_CONCURRENT_REQUESTS)`
(src/scrape_hacktown.py line 707) and hands it to every date's
coordinator; every page fetch — page 1 at line 471 and pages ≥ 2
through `fetch_with_semaphore` at lines 504-507 — runs entirely inside
`async with semaphore`.  We model each page fetch of the run as a task
that must hold one of the `n` slots while its fetch is in flight; the
event loop interleaves acquisitions and releases arbitrarily.
-/

/-- Lifecycle phase of one page-fetch task. -/
inductive Phase where
  | waiting
  | inflight
  | finished
deriving DecidableEq, BEq

/-- Number of fetches in flight in a scheduler state. -/
def inflight_count (s : List Phase) : Nat :=
  s.countP (fun p => p == Phase.inflight)

/-- One scheduler transition: a waiting task may start its fetch only
when fewer than `n` slots are held (`semaphore.acquire`), and an
in-flight task may finish at any time, releasing its slot.  The task
that moves is singled out by decomposing the state around it. -/
inductive SemStep (n : Nat) : List Phase → List Phase → Prop where
  | acquire (pre post : List Phase)
      (hcap : inflight_count (pre ++ Phase.waiting :: post) < n) :
      SemStep n (pre ++ Phase.waiting :: post)
        (pre ++ Phase.inflight :: post)
  | release (pre post : List Phase) :
      SemStep n (pre ++ Phase.inflight :: post)
        (pre ++ Phase.finished :: post)

/-- States reachable from the start of a run with `tasks` page fetches
pending (every page of every date, all drawing on the same limiter). -/
def sem_reachable (n tasks : Nat) (s : List Phase) : Prop :=
  Relation.ReflTransGen (SemStep n) (List.replicate tasks Phase.waiting) s

/-! ## Case-folding lemmas -/

theorem pyUpper_cons (c : Char) (t : List Char) :
    pyUpper (c :: t) = pyUpperChar c ++ pyUpper t := by
  simp [pyUpper]

theorem pyUpper_append (a b : List Char) :
    pyUpper (a ++ b) = pyUpper a ++ pyUpper b := by
  simp [pyUpper]

theorem pairs_fix :
    ∀ p ∈ upperPairs, pyUpperChar p.1 = [p.2] ∧ pyUpperChar p.2 = [p.2] := by
  decide

theorem pyUpperChar_fix (c : Char) : pyUpper (pyUpperChar c) = pyUpperChar c := by
  by_cases hb : c = 'ß'
  · subst hb; decide
  · rcases hf : upperPairs.find? (fun p => p.1 == c) with _ | p
    · have hc : pyUpperChar c = [c] := by simp [pyUpperChar, hb, hf]
      rw [hc, pyUpper_cons, hc]
      rfl
    · have hmem := List.mem_of_find?_eq_some hf
      have hfix := pairs_fix p hmem
      have hc : pyUpperChar c = [p.2] := by simp [pyUpperChar, hb, hf]
      rw [hc, pyUpper_cons, hfix.2]
      rfl

theorem pyUpper_idem (s : List Char) : pyUpper (pyUpper s) = pyUpper s := by
  induction s with
  | nil => rfl
  | cons c t ih =>
    rw [pyUpper_cons, pyUpper_append, pyUpperChar_fix, ih]

theorem upper_lower_char (c : Char) :
    pyUpperChar (pyLowerChar c) = pyUpperChar c := by
  rcases hf : upperPairs.find? (fun p => p.2 == c) with _ | p
  · simp [pyLowerChar, hf]
  · have hmem := List.mem_of_find?_eq_some hf
    have hpc : p.2 = c := by
      have h := List.find?_some hf
      simpa using h
    have hfix := pairs_fix p hmem
    have hl : pyLowerChar c = p.1 := by simp [pyLowerChar, hf]
    rw [hl, hfix.1, ← hpc, hfix.2]

theorem pyUpper_pyLower (s : List Char) : pyUpper (pyLower s) = pyUpper s := by
  induction s with
  | nil => rfl
  | cons c t ih =>
    have h1 : pyLower (c :: t) = pyLowerChar c :: pyLower t := rfl
    rw [h1, pyUpper_cons, upper_lower_char, ih, pyUpper_cons]

theorem pyUpperChar_ne_nil (c : Char) : pyUpperChar c ≠ [] := by
  unfold pyUpperChar
  split
  · simp
  · split <;> simp

theorem pyUpper_ne_nil {s : List Char} (h : s ≠ []) : pyUpper s ≠ [] := by
  cases s with
  | nil => exact absurd rfl h
  | cons c t =>
    rw [pyUpper_cons]
    intro hh
    rcases List.append_eq_nil.mp hh with ⟨h2, _⟩
    exact pyUpperChar_ne_nil c h2

theorem pyLower_ne_nil {s : List Char} (h : s ≠ []) : pyLower s ≠ [] := by
  simpa [pyLower, List.map_eq_nil_iff] using h

theorem find_rule_nil : find_rule (pyUpper []) = Option.none := by decide

/-! ## C6: totality and defaults of the classifier -/

/-- C6 counterexample: the claim says a non-empty input matching no
rule yields an explicit "unmapped" sentinel, never an absent value, as
`nearLocation`.  The source sets `near_location = None`: on the
unmapped input `"XYZ"` the classifier returns the original string and
an ABSENT `nearLocation`. -/
theorem C6_counterexample :
    normalize_and_locate ( "XYZ".toList) = ( "XYZ".toList, Option.none) := by
  decide

/-- C6 amended: `normalize_and_locate` is total — the empty string maps
to the `("Other", "Other")` sentinel pair, a matched input to its
rule's fixed pair, and a non-empty input matching no rule keeps the
original (non-folded) string as `filterLocation` with an absent (`None`)
`nearLocation` rather than an "unmapped" sentinel. -/
theorem C6_total_classification (place : List Char) :
    (place = [] →
      normalize_and_locate place = ( "Other".toList, some ( "Other".toList))) ∧
    (∀ rule, find_rule (pyUpper place) = some rule →
      normalize_and_locate place = (rule.2.1, some rule.2.2)) ∧
    (place ≠ [] → find_rule (pyUpper place) = Option.none →
      normalize_and_locate place = (place, Option.none)) := by
  refine ⟨?_, ?_, ?_⟩
  · intro h
    simp [normalize_and_locate, h]
  · intro rule hr
    have hne : place ≠ [] := by
      intro h
      subst h
      simp [find_rule_nil] at hr
    simp [normalize_and_locate, hne, hr]
  · intro hne hr
    simp [normalize_and_locate, hne, hr]

/-- C6 witness: the amended theorem at the empty string and at the
unmapped input `"XYZ"`. -/
theorem C6_witness :
    normalize_and_locate [] = ( "Other".toList, some ( "Other".toList)) ∧
    normalize_and_locate ( "XYZ".toList) = ( "XYZ".toList, Option.none) := by
  constructor
  · exact (C6_total_classification []).1 rfl
  · exact (C6_total_classification ( "XYZ".toList)).2.2 (by decide) (by decide)

/-! ## C7: case insensitivity of the classifier -/

/-- C7 counterexample: the claim says `classify(s) == classify(s.upper())`
for every non-empty `s`.  On an input matching no rule the source keeps
the ORIGINAL string as `filterLocation`, so `"xyz"` and its uppercasing
`"XYZ"` classify differently. -/
theorem C7_counterexample :
    pyUpper ( "xyz".toList) = "XYZ".toList ∧
    normalize_and_locate ( "xyz".toList) ≠
      normalize_and_locate (pyUpper ( "xyz".toList)) := by
  decide

/-- C7 amended: for every non-empty string whose case-folded form
matches some classification rule, the classifier is a pure function of
the case-folded content: `classify(s) == classify(s.upper()) ==
classify(s.lower())`. -/
theorem C7_case_invariant_on_match (place : List Char)
    (rule : List (List Char) × List Char × List Char)
    (hr : find_rule (pyUpper place) = some rule) :
    normalize_and_locate place = normalize_and_locate (pyUpper place) ∧
    normalize_and_locate place = normalize_and_locate (pyLower place) := by
  have hne : place ≠ [] := by
    intro h
    subst h
    simp [find_rule_nil] at hr
  have h1 : normalize_and_locate place = (rule.2.1, some rule.2.2) := by
    simp [normalize_and_locate, hne, hr]
  have hup : find_rule (pyUpper (pyUpper place)) = some rule := by
    rw [pyUpper_idem]
    exact hr
  have h2 : normalize_and_locate (pyUpper place) = (rule.2.1, some rule.2.2) := by
    simp [normalize_and_locate, pyUpper_ne_nil hne, hup]
  have hlo : find_rule (pyUpper (pyLower place)) = some rule := by
    rw [pyUpper_pyLower]
    exact hr
  have h3 : normalize_and_locate (pyLower place) = (rule.2.1, some rule.2.2) := by
    simp [normalize_and_locate, pyLower_ne_nil hne, hlo]
  exact ⟨h1.trans h2.symm, h1.trans h3.symm⟩

/-- C7 witness: the amended theorem at the matched input
`"inatel campus"`. -/
theorem C7_witness :
    normalize_and_locate ( "inatel campus".toList) =
      normalize_and_locate (pyUpper ( "inatel campus".toList)) ∧
    normalize_and_locate ( "inatel campus".toList) =
      normalize_and_locate (pyLower ( "inatel campus".toList)) :=
  C7_case_invariant_on_match ( "inatel campus".toList)
    ([ "INATEL".toList ], ( "Inatel".toList, "Inatel e Arredores".toList))
    (by decide)

/-! ## Pagination lemmas and C3, C4 -/

theorem append_page_eq {α : Type} (acc : List α) (r : Option (PageData α)) :
    append_page acc r = acc ++ opt_data r := by
  cases r <;> simp [append_page, opt_data]

theorem foldl_append_page {α : Type} (l : List (Option (PageData α)))
    (init : List α) :
    l.foldl append_page init = init ++ l.flatMap opt_data := by
  induction l generalizing init with
  | nil => simp
  | cons r t ih =>
    simp only [List.foldl_cons, List.flatMap_cons, append_page_eq, ih,
      List.append_assoc]

theorem flatMap_map_eq {α β γ : Type} (f : α → β) (g : β → List γ)
    (l : List α) :
    (l.map f).flatMap g = l.flatMap (fun a => g (f a)) := by
  induction l with
  | nil => rfl
  | cons a t ih => simp [ih]

theorem page_range_unfold_one (lp : Nat) (h : 1 ≤ lp) :
    page_range 1 lp = 1 :: page_range 2 (lp - 1) := by
  cases lp with
  | zero => omega
  | succ m => rfl

/-- C3: if page 1 of a date fails (all retries exhausted), the date's
outcome has zero records and a failed success flag, and no fetch is
issued for any page ≥ 2 of that date. -/
theorem C3_page1_failure {α : Type} (fetch : Nat → Option (PageData α))
    (h : fetch 1 = Option.none) :
    (fetch_all_pages_for_date fetch).1 = [] ∧
    (fetch_all_pages_for_date fetch).2.1 = false ∧
    ∀ p, 2 ≤ p → p ∉ (fetch_all_pages_for_date fetch).2.2 := by
  refine ⟨?_, ?_, ?_⟩
  · simp [fetch_all_pages_for_date, h]
  · simp [fetch_all_pages_for_date, h]
  · intro p hp hmem
    simp [fetch_all_pages_for_date, h] at hmem
    omega

/-- C3 witness: the theorem at the oracle that fails every page. -/
theorem C3_witness :
    (fetch_all_pages_for_date (fun _ => (Option.none : Option (PageData Nat)))).1
      = [] ∧
    (fetch_all_pages_for_date
        (fun _ => (Option.none : Option (PageData Nat)))).2.1 = false ∧
    2 ∉ (fetch_all_pages_for_date
        (fun _ => (Option.none : Option (PageData Nat)))).2.2 := by
  have h := C3_page1_failure (fun _ => (Option.none : Option (PageData Nat))) rfl
  exact ⟨h.1, h.2.1, h.2.2 2 (by decide)⟩

/-- C4: when page 1 succeeds the date's records are exactly the
concatenation, in ascending page number order, of every page's
contribution for pages `1..last_page` (a failed page ≥ 2 contributing
zero records), and the outcome is marked successful regardless of
failed later pages. -/
theorem C4_page_order {α : Type} (fetch : Nat → Option (PageData α))
    (first : PageData α) (h1 : fetch 1 = some first)
    (hlp : 1 ≤ first.last_page) :
    (fetch_all_pages_for_date fetch).1 =
      (page_range 1 first.last_page).flatMap (fun p => page_records fetch p) ∧
    (fetch_all_pages_for_date fetch).2.1 = true := by
  constructor
  · simp only [fetch_all_pages_for_date, h1]
    rw [foldl_append_page, flatMap_map_eq, page_range_unfold_one _ hlp,
      List.flatMap_cons]
    have hp1 : page_records fetch 1 = first.data := by
      simp [page_records, opt_data, h1]
    rw [hp1]
    rfl
  · simp [fetch_all_pages_for_date, h1]

/-- The oracle of the concrete scenario in C4: `last_page = 3`, pages
1, 2, 3 succeed with 4, 5 and 7 records. -/
def c4_oracle : Nat → Option (PageData Nat) := fun p =>
  if p = 1 then some ⟨[1, 2, 3, 4], 3⟩
  else if p = 2 then some ⟨[5, 6, 7, 8, 9], 3⟩
  else if p = 3 then some ⟨[10, 11, 12, 13, 14, 15, 16], 3⟩
  else Option.none

/-- C4 witness: on the concrete scenario the outcome has the 16 records
in page order 1, 2, 3 and is successful. -/
theorem C4_witness :
    (fetch_all_pages_for_date c4_oracle).1 =
      [1, 2, 3, 4, 5, 6, 7, 8, 9, 10, 11, 12, 13, 14, 15, 16] ∧
    (fetch_all_pages_for_date c4_oracle).2.1 = true := by
  have h := C4_page_order c4_oracle ⟨[1, 2, 3, 4], 3⟩ rfl (by decide)
  exact ⟨h.1.trans (by decide), h.2⟩

/-! ## Retry policy: C8, C9 -/

/-- C8 counterexample: after the first 403 (attempt number 1) with zero
jitter the constrained profile waits 30 seconds (`30 + 30·0`), while
the claim's formula `30 + 30·attempt` with `attempt = 1` demands 60
seconds. -/
theorem C8_counterexample :
    fetch_page_step true 3 0 403 0 0 = FetchAction.retryAfter 30 ∧
    claim_delay_403 true 1 0 = 60 ∧ (30 : ℚ) ≠ 60 := by
  have hd : retry_delay_403 true 0 0 = 30 := by
    norm_num [retry_delay_403, min_def]
  refine ⟨?_, ?_, by norm_num⟩
  · have hs : fetch_page_step true 3 0 403 0 0 =
        FetchAction.retryAfter (retry_delay_403 true 0 0) := by
      norm_num [fetch_page_step]
    rw [hs, hd]
  · norm_num [claim_delay_403, min_def]

/-- C8 amended: on a 403 with attempts remaining the delay before
attempt number `a + 1` follows the claim's per-profile formula with the
attempt index shifted down by one (`a - 1` failed retries precede it):
constrained `min(30 + 30·(a-1) + jitter, 120)`, unconstrained
`clamp(5, 5·2^(a-1) + jitter, 30)`, for attempt numbers
`a = 1..maxRetries-1`. -/
theorem C8_backoff_formula (is_ci : Bool) (mr a : Nat) (j jx : ℚ)
    (h1 : 1 ≤ a) (h2 : a < mr) :
    fetch_page_step is_ci mr (a - 1) 403 j jx =
      FetchAction.retryAfter (retry_delay_403 is_ci (a - 1) j) ∧
    retry_delay_403 is_ci (a - 1) j = claim_delay_403 is_ci (a - 1) j := by
  constructor
  · have h3 : a - 1 < mr - 1 := by omega
    simp [fetch_page_step, h3]
  · simp [retry_delay_403, claim_delay_403, RETRY_DELAY]

/-- C8 witness: the amended theorem at the first constrained-profile
attempt. -/
theorem C8_witness :
    fetch_page_step true 3 0 403 0 0 =
      FetchAction.retryAfter (retry_delay_403 true 0 0) ∧
    retry_delay_403 true 0 0 = claim_delay_403 true 0 0 :=
  C8_backoff_formula true 3 1 0 0 (by decide) (by decide)

/-- C9: a 4xx response other than 403 retries — after the sampled
15–30 s pause — only in the constrained profile with attempts
remaining; in the unconstrained profile, or with no attempts remaining,
`fetch_page` returns `None` immediately without retrying. -/
theorem C9_other_4xx (is_ci : Bool) (mr attempt status : Nat) (j403 j4xx : ℚ)
    (h4 : 400 ≤ status) (h5 : status < 500) (hn : status ≠ 403)
    (hj1 : 15 ≤ j4xx) (hj2 : j4xx ≤ 30) :
    (is_ci = true → attempt < mr - 1 →
      fetch_page_step is_ci mr attempt status j403 j4xx =
        FetchAction.retryAfter j4xx ∧ 15 ≤ j4xx ∧ j4xx ≤ 30) ∧
    (is_ci = false →
      fetch_page_step is_ci mr attempt status j403 j4xx =
        FetchAction.giveUp) ∧
    (¬ attempt < mr - 1 →
      fetch_page_step is_ci mr attempt status j403 j4xx =
        FetchAction.giveUp) := by
  have h200 : status ≠ 200 := by omega
  refine ⟨?_, ?_, ?_⟩
  · intro hci hlt
    subst hci
    refine ⟨?_, hj1, hj2⟩
    simp [fetch_page_step, h200, hn, h4, h5, hlt]
  · intro hci
    subst hci
    simp [fetch_page_step, h200, hn]
  · intro hlt
    simp [fetch_page_step, h200, hn, hlt]

/-- C9 witness: a 404 in the constrained profile with attempts
remaining retries after the sampled 20 s; in the unconstrained profile
it gives up at once. -/
theorem C9_witness :
    fetch_page_step true 3 0 404 0 20 = FetchAction.retryAfter 20 ∧
    fetch_page_step false 5 0 404 0 20 = FetchAction.giveUp := by
  have h1 := C9_other_4xx true 3 0 404 0 20 (by norm_num) (by norm_num)
    (by norm_num) (by norm_num) (by norm_num)
  have h2 := C9_other_4xx false 5 0 404 0 20 (by norm_num) (by norm_num)
    (by norm_num) (by norm_num) (by norm_num)
  exact ⟨(h1.1 rfl (by norm_num)).1, h2.2.1 rfl⟩

/-! ## C5: the global concurrency bound -/

theorem inflight_count_split (pre post : List Phase) (v : Phase) :
    inflight_count (pre ++ v :: post) =
      inflight_count pre + inflight_count post +
        (if v == Phase.inflight then 1 else 0) := by
  simp [inflight_count, List.countP_append, List.countP_cons]
  omega

/-- C5: in every scheduler state reachable during a run, the number of
page fetches in flight is at most `MAX_CONCURRENT_REQUESTS` of the
active profile — the one semaphore is shared by every page fetch of
every date, including each date's page 1. -/
theorem C5_global_bound (is_ci : Bool) (tasks : Nat) (s : List Phase)
    (h : sem_reachable (MAX_CONCURRENT_REQUESTS is_ci) tasks s) :
    inflight_count s ≤ MAX_CONCURRENT_REQUESTS is_ci := by
  induction h with
  | refl =>
    have h0 : inflight_count (List.replicate tasks Phase.waiting) = 0 := by
      simp only [inflight_count, List.countP_eq_zero, List.mem_replicate]
      intro a ha
      rw [ha.2]
      decide
    omega
  | tail hsteps hstep ih =>
    cases hstep with
    | acquire pre post hcap =>
      rw [inflight_count_split] at hcap ⊢
      simp only [show (Phase.waiting == Phase.inflight) = false from rfl,
        show (Phase.inflight == Phase.inflight) = true from rfl] at hcap ⊢
      simp at hcap ⊢
      omega
    | release pre post =>
      rw [inflight_count_split] at ih ⊢
      simp only [show (Phase.inflight == Phase.inflight) = true from rfl,
        show (Phase.finished == Phase.inflight) = false from rfl] at ih ⊢
      simp at ih ⊢
      omega

/-- C5 witness: the bound at a concrete reachable state — three pending
fetches in the constrained profile, the first task having acquired the
single slot. -/
theorem C5_witness :
    inflight_count [Phase.inflight, Phase.waiting, Phase.waiting] ≤
      MAX_CONCURRENT_REQUESTS true := by
  refine C5_global_bound true 3 _ ?_
  exact Relation.ReflTransGen.single
    (SemStep.acquire [] [Phase.waiting, Phase.waiting] (by decide))

/-! ## Summary-model lemmas and C1, C2 -/

theorem aggregate_go {α : Type} (l : List (String × List α)) (t s : Nat)
    (f : List String) :
    l.foldl
      (fun acc de =>
        if de.2.isEmpty then (acc.1, acc.2.1, acc.2.2 ++ [de.1])
        else (acc.1 + de.2.length, acc.2.1 + 1, acc.2.2))
      (t, s, f) =
      (t + (l.map (fun de => de.2.length)).sum,
       s + l.countP (fun de => !de.2.isEmpty),
       f ++ (l.filter (fun de => de.2.isEmpty)).map Prod.fst) := by
  induction l generalizing t s f with
  | nil => simp
  | cons de rest ih =>
    by_cases he : de.2.isEmpty
    · have hlen : de.2.length = 0 := by
        rw [List.isEmpty_iff] at he
        simp [he]
      simp [List.foldl_cons, he, ih, List.countP_cons, List.filter_cons, hlen]
    · simp only [List.foldl_cons, he, if_false, Bool.false_eq_true, ite_false,
        ih, List.map_cons, List.sum_cons, List.countP_cons, List.filter_cons]
      simp [he]
      omega

theorem aggregate_eq {α : Type} (l : List (String × List α)) :
    aggregate l =
      ((l.map (fun de => de.2.length)).sum,
       l.countP (fun de => !de.2.isEmpty),
       (l.filter (fun de => de.2.isEmpty)).map Prod.fst) := by
  have h := aggregate_go l 0 0 []
  simpa [aggregate] using h

theorem fetch_records_nil {α : Type} (fetch : Nat → Option (PageData α))
    (h : fetch 1 = Option.none) :
    (fetch_all_pages_for_date fetch).1 = [] := by
  simp [fetch_all_pages_for_date, h]

theorem fetch_flag_false_iff {α : Type} (fetch : Nat → Option (PageData α)) :
    (fetch_all_pages_for_date fetch).2.1 = false ↔ fetch 1 = Option.none := by
  rcases h : fetch 1 with _ | first <;> simp [fetch_all_pages_for_date, h]

theorem sum_filter_nonempty {β : Type} (ls : List (List β)) :
    ((ls.filter (fun l => !l.isEmpty)).map List.length).sum =
      (ls.map List.length).sum := by
  induction ls with
  | nil => rfl
  | cons l t ih =>
    by_cases hl : l.isEmpty
    · have hlen : l.length = 0 := by
        rw [List.isEmpty_iff] at hl
        simp [hl]
      simp [List.filter_cons, hl, ih, hlen]
    · simp [List.filter_cons, hl, ih]

/-- C1: when no date succeeds (every date's page 1 failed), the emitted
summary carries `scraping_completed`, `total_events`,
`successful_dates` and `files_created` over from the prior persisted
summary verbatim (with the source's defaults when absent), lists every
date as failed, stamps the distinct `last_failed_attempt` field with
the current run's timestamp, and sets `consecutive_failures` to the
prior count plus exactly one. -/
theorem C1_total_failure {α : Type} (dates : List String)
    (oracle : String → Nat → Option (PageData α))
    (existing : ExistingSummary) (now : String) (elapsed : ℚ)
    (cache_size : Nat)
    (h : ∀ d ∈ dates, (fetch_all_pages_for_date (oracle d)).2.1 = false) :
    run_pipeline dates oracle existing now elapsed cache_size =
      { scraping_completed := existing.scraping_completed.getD "Never"
        total_events := existing.total_events.getD 0
        successful_dates := existing.successful_dates.getD 0
        failed_dates := dates
        dates_processed := dates
        files_created := existing.files_created.getD []
        scraping_time_seconds := elapsed
        events_per_second := Option.none
        location_cache_size := Option.none
        last_failed_attempt := some now
        consecutive_failures :=
          some (existing.consecutive_failures.getD 0 + 1) } := by
  have hrec : ∀ d ∈ dates, (fetch_all_pages_for_date (oracle d)).1 = [] := by
    intro d hd
    exact fetch_records_nil _ ((fetch_flag_false_iff (oracle d)).mp (h d hd))
  have hcount :
      (dates.map (fun d => (d, (fetch_all_pages_for_date (oracle d)).1))).countP
        (fun de => !de.2.isEmpty) = 0 := by
    rw [List.countP_eq_zero]
    intro de hde
    rcases List.mem_map.mp hde with ⟨d, hd, rfl⟩
    simp [hrec d hd]
  have hfail :
      ((dates.map
          (fun d => (d, (fetch_all_pages_for_date (oracle d)).1))).filter
        (fun de => de.2.isEmpty)).map Prod.fst = dates := by
    rw [List.filter_eq_self.mpr]
    · rw [List.map_map]
      exact List.map_id dates
    · intro de hde
      rcases List.mem_map.mp hde with ⟨d, hd, rfl⟩
      simp [hrec d hd]
  simp only [run_pipeline, build_summary, aggregate_eq, hcount, hfail]
  rfl

/-- C1 witness: two dates, every page fetch failing, a fully populated
prior summary. -/
theorem C1_witness :
    run_pipeline [ "2025-07-30", "2025-07-31" ]
        (fun _ _ => (Option.none : Option (PageData Nat)))
        ⟨some "t0", some 42, some 3, some [ "a.json" ], some 2⟩
        "t1" 1 0 =
      { scraping_completed := "t0"
        total_events := 42
        successful_dates := 3
        failed_dates := [ "2025-07-30", "2025-07-31" ]
        dates_processed := [ "2025-07-30", "2025-07-31" ]
        files_created := [ "a.json" ]
        scraping_time_seconds := 1
        events_per_second := Option.none
        location_cache_size := Option.none
        last_failed_attempt := some "t1"
        consecutive_failures := some 3 } :=
  C1_total_failure [ "2025-07-30", "2025-07-31" ]
    (fun _ _ => (Option.none : Option (PageData Nat)))
    ⟨some "t0", some 42, some 3, some [ "a.json" ], some 2⟩
    "t1" 1 0 (fun _ _ => rfl)

/-- The page oracle of the C2 counterexample: page 1 of every date
succeeds with an empty `data` array and `last_page = 1`. -/
def c2_oracle : String → Nat → Option (PageData Nat) := fun _ p =>
  if p = 1 then some ⟨[], 1⟩ else Option.none

/-- The prior summary of the C2 counterexample. -/
def c2_existing : ExistingSummary :=
  ⟨some "t0", some 7, some 0, some [], some 0⟩

/-- C2 counterexample: with one date whose DateOutcome is successful
(page 1 succeeded) but has zero records, the claim demands
`totalEvents = 0` (sum over successful outcomes) and a successful-date
count of 1; the emitted summary instead reports the prior run's
`total_events = 7` and `successful_dates = 0`, because `main` counts a
date as successful only when its record list is non-empty and here
takes the rollback branch. -/
theorem C2_counterexample :
    (fetch_all_pages_for_date (c2_oracle "2025-07-30")).2.1 = true ∧
    (fetch_all_pages_for_date (c2_oracle "2025-07-30")).1.length = 0 ∧
    (run_pipeline [ "2025-07-30" ] c2_oracle c2_existing "t1" 1 0).total_events
      = 7 ∧
    (run_pipeline [ "2025-07-30" ] c2_oracle c2_existing "t1" 1
        0).successful_dates = 0 := by
  refine ⟨by decide, by decide, ?_, ?_⟩ <;> decide

/-- C2 amended: if at least one date yields a non-empty record list,
the emitted summary's `total_events` is the sum of record counts across
the dates with non-empty record lists (the code's success criterion),
and `successful_dates` is the number of such dates. -/
theorem C2_success_totals {α : Type} (dates : List String)
    (oracle : String → Nat → Option (PageData α))
    (existing : ExistingSummary) (now : String) (elapsed : ℚ)
    (cache_size : Nat)
    (h : ∃ d ∈ dates, (fetch_all_pages_for_date (oracle d)).1 ≠ []) :
    (run_pipeline dates oracle existing now elapsed
        cache_size).total_events =
      (((dates.map (fun d => (fetch_all_pages_for_date (oracle d)).1)).filter
          (fun l => !l.isEmpty)).map List.length).sum ∧
    (run_pipeline dates oracle existing now elapsed
        cache_size).successful_dates =
      (dates.map (fun d => (fetch_all_pages_for_date (oracle d)).1)).countP
        (fun l => !l.isEmpty) := by
  obtain ⟨d0, hd0, hne⟩ := h
  have hpos :
      0 < (dates.map
          (fun d => (d, (fetch_all_pages_for_date (oracle d)).1))).countP
        (fun de => !de.2.isEmpty) := by
    rw [List.countP_pos_iff]
    refine ⟨(d0, (fetch_all_pages_for_date (oracle d0)).1),
      List.mem_map_of_mem _ hd0, ?_⟩
    simpa using hne
  constructor
  · simp only [run_pipeline, build_summary, aggregate_eq]
    rw [if_pos hpos]
    rw [sum_filter_nonempty, List.map_map, List.map_map]
    rfl
  · simp only [run_pipeline, build_summary, aggregate_eq]
    rw [if_pos hpos]
    rw [List.countP_map, List.countP_map]
    rfl

/-- C2 witness: the amended theorem at one date with two records. -/
theorem C2_witness :
    (run_pipeline [ "2025-07-30" ]
        (fun _ p => if p = 1 then some (⟨[5, 6], 1⟩ : PageData Nat)
          else Option.none)
        c2_existing "t1" 1 0).total_events =
      ((([ "2025-07-30" ].map
          (fun d => (fetch_all_pages_for_date
            ((fun _ p => if p = 1 then some (⟨[5, 6], 1⟩ : PageData Nat)
              else Option.none) d)).1)).filter
        (fun l => !l.isEmpty)).map List.length).sum ∧
    (run_pipeline [ "2025-07-30" ]
        (fun _ p => if p = 1 then some (⟨[5, 6], 1⟩ : PageData Nat)
          else Option.none)
        c2_existing "t1" 1 0).successful_dates =
      ([ "2025-07-30" ].map
        (fun d => (fetch_all_pages_for_date
          ((fun _ p => if p = 1 then some (⟨[5, 6], 1⟩ : PageData Nat)
            else Option.none) d)).1)).countP
        (fun l => !l.isEmpty) :=
  C2_success_totals [ "2025-07-30" ]
    (fun _ p => if p = 1 then some (⟨[5, 6], 1⟩ : PageData Nat)
      else Option.none)
    c2_existing "t1" 1 0 ⟨ "2025-07-30", by decide, by decide⟩

/-! ## Record-frame lemmas and C10 -/

theorem dict_get_map_self (r : EventRecord) (k : String) (v : Val)
    (ha : r.any (fun p => p.1 == k) = true) :
    dict_get (r.map (fun p => if p.1 == k then (k, v) else p)) k = some v := by
  induction r with
  | nil => simp at ha
  | cons p rest ih =>
    simp only [beq_iff_eq] at ih
    by_cases hpk : p.1 = k
    · simp [dict_get, hpk]
    · have ha' : rest.any (fun q => q.1 == k) = true := by
        rw [List.any_cons, Bool.or_eq_true] at ha
        refine ha.resolve_left ?_
        simp [hpk]
      simp [dict_get, hpk, ih ha']

theorem dict_get_map_ne (r : EventRecord) (k k' : String) (v : Val)
    (hk : k' ≠ k) :
    dict_get (r.map (fun p => if p.1 == k then (k, v) else p)) k' =
      dict_get r k' := by
  induction r with
  | nil => rfl
  | cons p rest ih =>
    simp only [beq_iff_eq] at ih
    by_cases hpk : p.1 = k
    · have hkk : ¬ (k = k') := Ne.symm hk
      simp [dict_get, hpk, hkk, ih]
    · simp [dict_get, hpk, ih]

theorem dict_get_append_self (r : EventRecord) (k : String) (v : Val)
    (ha : r.any (fun p => p.1 == k) = false) :
    dict_get (r ++ [(k, v)]) k = some v := by
  induction r with
  | nil => simp [dict_get]
  | cons p rest ih =>
    rw [List.any_cons, Bool.or_eq_false_iff] at ha
    obtain ⟨hp, ha'⟩ := ha
    have hpk : ¬ p.1 = k := by simpa using hp
    simp [dict_get, hpk, ih ha']

theorem dict_get_append_ne (r : EventRecord) (k k' : String) (v : Val)
    (hk : k' ≠ k) :
    dict_get (r ++ [(k, v)]) k' = dict_get r k' := by
  induction r with
  | nil => simp [dict_get, Ne.symm hk]
  | cons p rest ih => simp [dict_get, ih]

theorem dict_get_set_self (r : EventRecord) (k : String) (v : Val) :
    dict_get (dict_set r k v) k = some v := by
  unfold dict_set
  cases hb : r.any (fun p => p.1 == k) with
  | true =>
    rw [if_pos rfl]
    exact dict_get_map_self r k v hb
  | false =>
    rw [if_neg (by simp)]
    exact dict_get_append_self r k v hb

theorem dict_get_set_ne (r : EventRecord) (k k' : String) (v : Val)
    (hk : k' ≠ k) :
    dict_get (dict_set r k v) k' = dict_get r k' := by
  unfold dict_set
  cases hb : r.any (fun p => p.1 == k) with
  | true =>
    rw [if_pos rfl]
    exact dict_get_map_ne r k k' v hk
  | false =>
    rw [if_neg (by simp)]
    exact dict_get_append_ne r k k' v hk

theorem add_locations_frame (r : EventRecord) (p : List Char) (k : String)
    (h1 : k ≠ "filterLocation") (h2 : k ≠ "nearLocation") :
    dict_get (add_locations r p) k = dict_get r k := by
  unfold add_locations
  rw [dict_get_set_ne _ _ _ _ h2, dict_get_set_ne _ _ _ _ h1]

theorem add_locations_filter (r : EventRecord) (p : List Char) :
    dict_get (add_locations r p) "filterLocation" =
      some (Val.str (normalize_and_locate p).1) := by
  unfold add_locations
  rw [dict_get_set_ne _ _ _ _ (by decide), dict_get_set_self]

theorem add_locations_near (r : EventRecord) (p : List Char) :
    dict_get (add_locations r p) "nearLocation" =
      some (match (normalize_and_locate p).2 with
            | some s => Val.str s
            | Option.none => Val.null) := by
  unfold add_locations
  rw [dict_get_set_self]

/-- C10: record normalization preserves the list's length and order,
leaves every pre-existing field of every record unchanged except the
two derived fields, and sets `filterLocation` and `nearLocation` on
every record (overwriting them if present) — no other field is added or
removed.  The hypothesis restricts inputs to records whose `place`
field is absent, `null` or a string, the RawRecord shape; on anything
else the source raises instead of returning. -/
theorem C10_frame (events : List EventRecord)
    (h : ∀ r ∈ events, place_ok r = true) :
    ∃ out, process_events events = some out ∧
      out.length = events.length ∧
      List.Forall₂ (fun r r' =>
        (∀ k, k ≠ "filterLocation" → k ≠ "nearLocation" →
          dict_get r' k = dict_get r k) ∧
        (∃ p, place_of r = some p ∧
          dict_get r' "filterLocation" =
            some (Val.str (normalize_and_locate p).1) ∧
          dict_get r' "nearLocation" =
            some (match (normalize_and_locate p).2 with
                  | some s => Val.str s
                  | Option.none => Val.null))) events out := by
  induction events with
  | nil => exact ⟨[], rfl, rfl, List.Forall₂.nil⟩
  | cons r rest ih =>
    have hr := h r (List.mem_cons_self r rest)
    obtain ⟨out, hout, hlen, hfa⟩ :=
      ih (fun x hx => h x (List.mem_cons_of_mem r hx))
    rcases hp : place_of r with _ | p
    · rw [place_ok, hp] at hr
      simp at hr
    · refine ⟨add_locations r p :: out, ?_, ?_, ?_⟩
      · simp [process_events, process_event, hp, hout]
      · simp [hlen]
      · exact List.Forall₂.cons
          ⟨fun k h1 h2 => add_locations_frame r p k h1 h2,
           p, hp, add_locations_filter r p, add_locations_near r p⟩ hfa

/-- C10 witness: the theorem at one record carrying a string place and
an opaque extra field. -/
theorem C10_witness :
    ∃ out,
      process_events [[( "place", Val.str ( "INATEL hall".toList)),
          ( "id", Val.blob 7)]] = some out ∧
      out.length =
        ([[( "place", Val.str ( "INATEL hall".toList)),
            ( "id", Val.blob 7)]] : List EventRecord).length ∧
      List.Forall₂ (fun r r' =>
        (∀ k, k ≠ "filterLocation" → k ≠ "nearLocation" →
          dict_get r' k = dict_get r k) ∧
        (∃ p, place_of r = some p ∧
          dict_get r' "filterLocation" =
            some (Val.str (normalize_and_locate p).1) ∧
          dict_get r' "nearLocation" =
            some (match (normalize_and_locate p).2 with
                  | some s => Val.str s
                  | Option.none => Val.null)))
        [[( "place", Val.str ( "INATEL hall".toList)),
          ( "id", Val.blob 7)]] out :=
  C10_frame [[( "place", Val.str ( "INATEL hall".toList)),
    ( "id", Val.blob 7)]] (by decide)

end Hacktown
